import Mathlib

/-!
Verification model of the sharded disk cache in `src/server/src/cache.rs`.

The shallow embedding translates `DiskCache` and `ConcurrentDiskCache` into
pure Lean functions over an explicit shard state.  Interactions with the
outside world (the blob store reached through `reqwest`, the filesystem, and
the metadata store wrapped by `crate::redis::RedisServer`) are driven by
oracle records passed to each call: the oracle decides whether each fallible
external operation succeeds, while the state transition applied on each
outcome is translated directly from the source.

Conventions of the embedding:
  * files are unit sized, exactly as in the source (`let file_size = 1`);
  * a cached file is named by its uid (`fs::File::create(...).join(s3_file_name)`
    and `set_file_cache_loc(uid, Path::new("").join(s3_file_name))` both use
    the uid as the name), so filenames are represented by the uid string;
  * `disk` is the set of filenames present in the cache directory and
    `redis` is the set of uids holding a location record in the metadata
    store; both are kept as duplicate-free lists;
  * `fs::metadata` and `fs::remove_file` can only succeed when the file is
    actually present; when it is present the oracle decides success
    (an I/O error such as a permission failure is always possible);
  * u16 arithmetic is modelled on Nat with an explicit mod 2^16, matching
    the wrapping semantics of a release build.
-/

-- Constants from cache.rs ----------------------------------------------------

/-- cache.rs line 20: `const SHARD_COUNT: u64 = 3`. -/
def SHARD_COUNT : Nat := 3

/-- cache.rs line 21: `pub const PORT_OFFSET_TO_WEB_SERVER: u16 = 20000`. -/
def PORT_OFFSET_TO_WEB_SERVER : Nat := 20000

-- Addresses and redirect URLs ------------------------------------------------

/-- Model of `std::net::IpAddr`: an IPv4 or IPv6 address. -/
inductive IpAddr
  | v4 (a b c d : Nat)
  | v6 (segs : List Nat)
deriving DecidableEq

/-- `IpAddr::is_loopback`: 127.x.x.x for IPv4, ::1 for IPv6. -/
def IpAddr.isLoopback : IpAddr → Bool
  | IpAddr.v4 a _ _ _ => a == 127
  | IpAddr.v6 segs => segs == [0, 0, 0, 0, 0, 0, 0, 1]

/-- Host component of the redirect URL: either the literal string
"localhost" (written for loopback owners) or the owner IP itself. -/
inductive Host
  | localhost
  | ip (a : IpAddr)
deriving DecidableEq

/-- The observable parts of the redirect URL built in
`DiskCache::get_file` (cache.rs lines 59 to 70). -/
structure RedirUrl where
  host : Host
  port : Nat
  path : String
deriving DecidableEq

/-- cache.rs lines 60 to 68: build the redirect URL for a remote owner.
`url.set_port(Some(p + PORT_OFFSET_TO_WEB_SERVER))` adds two u16 values,
which wraps modulo 2^16 in a release build; `url.set_path("s3/<uid>")`
yields the absolute path "/s3/<uid>". -/
def redirectUrlFor (x : IpAddr) (p : Nat) (uid : String) : RedirUrl :=
  { host := if x.isLoopback then Host.localhost else Host.ip x,
    port := (p + PORT_OFFSET_TO_WEB_SERVER) % 65536,
    path := "/s3/" ++ uid }

-- Shard state ----------------------------------------------------------------

/-- The mutable state of one `DiskCache` shard (cache.rs lines 32 to 38)
together with the two pieces of external state its code manipulates:
the files in its cache directory and the location records it owns in the
metadata store. -/
structure ShardState where
  maxSize : Nat
  currentSize : Nat
  accessOrder : List String
  disk : List String
  redis : List String
deriving DecidableEq

/-- `DiskCache::new` (cache.rs lines 43 to 52): empty cache, size 0. -/
def initShard (mx : Nat) : ShardState :=
  { maxSize := mx, currentSize := 0, accessOrder := [], disk := [], redis := [] }

/-- `DiskCache::update_access` (cache.rs lines 152 to 155):
`retain(|x| x != file_name)` then `push_back(file_name)`. -/
def updateAccess (st : ShardState) (f : String) : ShardState :=
  { st with accessOrder := st.accessOrder.filter (fun x => x != f) ++ [f] }

-- Oracles for the external world ---------------------------------------------

/-- Per-victim eviction oracle for one iteration of the loop in
`ensure_capacity`: whether `fs::metadata` succeeds (only possible when the
file exists), whether `fs::remove_file` succeeds, and whether the
best-effort `redis_read.remove_file` (its result is discarded by `let _ =`)
succeeds. -/
structure EvictOracle where
  metaOk : Bool
  removeOk : Bool
  recOk : Bool

/-- Outcome of the blob-storage request in `get_s3_file_to_cache`
(cache.rs lines 102 to 114): success, a 404 from the store, or any other
failure (a transport error or a non-success status, both mapped to
`ErrorKind::Other` by the source). -/
inductive S3Resp
  | ok
  | notFound
  | otherErr
deriving DecidableEq

/-- Environment oracle for one `DiskCache::get_file` call.
`lookup` is the answer of `redis_read.location_lookup` (modelled from the
spec, section 4.1: `lookup_node_for(uid) -> Option<(address, port)>`, `none`
when the uid belongs to the local node). `readOk` is whether the
`redis_read.get_file` record read reaches the store (a store read failure
degrades to a miss, spec section 4.1). `createOk` is whether
`fs::File::create(..)` succeeds (on failure no file is produced), and
`writeOk` is whether the subsequent `write_all` succeeds — when the create
succeeds but the write fails, the created file stays in the cache
directory even though the fetch reports an error (cache.rs line 117).
`setLocOk` is whether the best-effort `set_file_cache_loc` write succeeds.
`evs` feeds the eviction loop. `openOk` is whether `NamedFile::open`
succeeds when the file is present (when the file is absent it always
fails). -/
structure GetOracle where
  lookup : Option (IpAddr × Nat)
  readOk : Bool
  s3 : S3Resp
  createOk : Bool
  writeOk : Bool
  setLocOk : Bool
  evs : List EvictOracle
  openOk : Bool

-- Eviction -------------------------------------------------------------------

/-- Partial state carried through the eviction loop. -/
structure EvOut where
  size : Nat
  order : List String
  disk : List String
  redis : List String

/-- The loop of `DiskCache::ensure_capacity` (cache.rs lines 124 to 150):
while `current_size >= max_size` and the order queue is nonempty, pop the
front victim; if `fs::metadata` succeeds, try `fs::remove_file`; on a
successful delete decrement `current_size`, drop the file from disk, and
best-effort remove the location record; on any failure just log and keep
looping (the victim stays dropped from the queue, size is not decremented). -/
def evictLoop (mx : Nat) : List EvictOracle → List String → Nat → List String → List String → EvOut
  | _, [], size, disk, redis => ⟨size, [], disk, redis⟩
  | evs, f :: rest, size, disk, redis =>
    if mx ≤ size then
      if (evs.headD ⟨true, true, true⟩).metaOk ∧ f ∈ disk then
        if (evs.headD ⟨true, true, true⟩).removeOk then
          evictLoop mx evs.tail rest (size - 1) (disk.erase f)
            (if (evs.headD ⟨true, true, true⟩).recOk then redis.erase f else redis)
        else
          evictLoop mx evs.tail rest size disk redis
      else
        evictLoop mx evs.tail rest size disk redis
    else ⟨size, f :: rest, disk, redis⟩

/-- `DiskCache::ensure_capacity` as a state transformer. -/
def ensureCapacity (evs : List EvictOracle) (st : ShardState) : ShardState :=
  let r := evictLoop st.maxSize evs st.accessOrder st.currentSize st.disk st.redis
  { st with currentSize := r.size, accessOrder := r.order, disk := r.disk, redis := r.redis }

-- Fetch-on-miss --------------------------------------------------------------

/-- The error kinds produced inside `get_s3_file_to_cache`:
`notFound` for the 404 branch (ErrorKind::NotFound, line 108), `upstream`
for a transport error or non-success status (ErrorKind::Other, lines 104
and 113), `diskWrite` for a failure of `File::create` or `write_all`
propagated by `?` (line 117). -/
inductive FetchErr
  | notFound
  | upstream
  | diskWrite
deriving DecidableEq

/-- `DiskCache::get_s3_file_to_cache` (cache.rs lines 99 to 122): on a
store failure return the error before touching any state; on success run
`ensure_capacity`, then `fs::File::create(..)?.write_all(..)?` — a failed
create propagates with no file produced, while a failed `write_all` after
a successful create propagates with the created file left in the cache
directory, uncounted and untracked; on full success count one unit of
size and append the uid to the access order. The eviction side effects of
`ensure_capacity` persist on every failure path. -/
def getS3FileToCache (st : ShardState) (uid : String) (o : GetOracle) :
    Except FetchErr String × ShardState :=
  match o.s3 with
  | S3Resp.notFound => (Except.error FetchErr.notFound, st)
  | S3Resp.otherErr => (Except.error FetchErr.upstream, st)
  | S3Resp.ok =>
    let st1 := ensureCapacity o.evs st
    if o.createOk then
      if o.writeOk then
        (Except.ok uid,
          { st1 with
            currentSize := st1.currentSize + 1,
            accessOrder := st1.accessOrder ++ [uid],
            disk := st1.disk.insert uid })
      else
        (Except.error FetchErr.diskWrite, { st1 with disk := st1.disk.insert uid })
    else
      (Except.error FetchErr.diskWrite, st1)

-- get_file -------------------------------------------------------------------

/-- Client-visible result of a `get_file` call.
`served f` is `Ok(NamedFile)` for the file `f` in the cache directory;
`nodeRedirect u` is `Err(Redirect::to(url))` for a remote owner;
`notFoundRedirect` is `Err(Redirect::to("/not_found_on_this_disk"))`;
`mappingErrorRedirect` is `Err(Redirect::to("/error_updating_mapping"))`
issued only by `ConcurrentDiskCache::get_file`. -/
inductive GFResult
  | served (file : String)
  | nodeRedirect (u : RedirUrl)
  | notFoundRedirect
  | mappingErrorRedirect
deriving DecidableEq

/-- Output of one `DiskCache::get_file` call: the result, the shard state
after the call, and whether the shard mutex was acquired during the call
(`cache.lock().await`, cache.rs line 57, runs before anything else). -/
structure DGetOut where
  res : GFResult
  st : ShardState
  lockedShard : Bool
deriving DecidableEq

/-- `DiskCache::get_file` (cache.rs lines 54 to 97).  The shard mutex is
acquired first (line 57).  Then the slot-map lookup decides a redirect
(lines 58 to 71).  Otherwise a location-record hit serves from disk after
moving the uid to the access-order tail, and a miss goes through
`get_s3_file_to_cache` followed by a best-effort `set_file_cache_loc`
(lines 80 to 82) and the same `update_access` plus `NamedFile::open`
sequence; any fetch error is answered with the not-found redirect
(lines 84 to 87), and so is an open failure (line 96). -/
def dget (st : ShardState) (uid : String) (o : GetOracle) : DGetOut :=
  match o.lookup with
  | some (x, p) => ⟨GFResult.nodeRedirect (redirectUrlFor x p uid), st, true⟩
  | none =>
    if o.readOk ∧ uid ∈ st.redis then
      let st1 := updateAccess st uid
      if o.openOk ∧ uid ∈ st1.disk then
        ⟨GFResult.served uid, st1, true⟩
      else
        ⟨GFResult.notFoundRedirect, st1, true⟩
    else
      match getS3FileToCache st uid o with
      | (Except.ok f, st1) =>
        let st2 := if o.setLocOk then { st1 with redis := st1.redis.insert uid } else st1
        let st3 := updateAccess st2 f
        if o.openOk ∧ f ∈ st3.disk then
          ⟨GFResult.served f, st3, true⟩
        else
          ⟨GFResult.notFoundRedirect, st3, true⟩
      | (Except.error _, st1) => ⟨GFResult.notFoundRedirect, st1, true⟩

-- ConcurrentDiskCache --------------------------------------------------------

/-- The cross-shard state of `ConcurrentDiskCache` (cache.rs lines 24 to
30): the shard vector plus the `mapping_initialized` flag living inside the
shared `RedisServer` (modelled from the spec, section 3: the slot map is
absent at startup and the flag starts false). -/
structure ClusterState where
  mappingInitialized : Bool
  shards : List ShardState
deriving DecidableEq

/-- `ConcurrentDiskCache::new` (cache.rs lines 161 to 177): SHARD_COUNT
shards, each with max size `max_size / SHARD_COUNT`, slot map not yet
loaded. -/
def clusterInit (mx : Nat) : ClusterState :=
  { mappingInitialized := false,
    shards := List.replicate SHARD_COUNT (initShard (mx / SHARD_COUNT)) }

/-- A default shard used only as the out-of-range fallback of list
indexing; `shard_index` is always below the shard count. -/
def emptyShard : ShardState := initShard 0

/-- Output of one `ConcurrentDiskCache::get_file` call: the result, the
cluster state after the call, and the index of the shard whose mutex was
acquired (none when the call aborted before selecting a shard). -/
structure CGetOut where
  res : GFResult
  cs : ClusterState
  touchedShard : Option Nat
deriving DecidableEq

/-- The routing tail of `ConcurrentDiskCache::get_file` (cache.rs lines
197 to 208): select the shard by `hash(uid) % shards.len()` (the hash comes
from `crate::util::hash`, which is not part of the sources, so it is a
parameter here) and delegate to `DiskCache::get_file`. -/
def cgetRoute (hashFn : String → Nat) (cs : ClusterState) (uid : String) (g : GetOracle) : CGetOut :=
  let idx := hashFn uid % cs.shards.length
  let out := dget (cs.shards.getD idx emptyShard) uid g
  ⟨out.res, { cs with shards := cs.shards.set idx out.st }, some idx⟩

/-- Oracle for one `ConcurrentDiskCache::get_file` call: whether
`update_slot_to_node_mapping` succeeds (modelled from the spec, section
4.1: `refresh_slot_map` can fail when the coordination service is
unreachable or the topology is malformed), plus the shard-level oracle. -/
structure ClusterOracle where
  refreshOk : Bool
  g : GetOracle

/-- `ConcurrentDiskCache::get_file` (cache.rs lines 178 to 209): when the
slot map is not yet marked initialized, refresh it; a refresh failure
aborts the request with the mapping-error redirect and leaves the flag
false (the flag is assigned true only after a successful refresh, line
191); otherwise route to the selected shard. -/
def cget (hashFn : String → Nat) (cs : ClusterState) (uid : String) (o : ClusterOracle) : CGetOut :=
  if cs.mappingInitialized then
    cgetRoute hashFn cs uid o.g
  else if o.refreshOk then
    cgetRoute hashFn { cs with mappingInitialized := true } uid o.g
  else
    ⟨GFResult.mappingErrorRedirect, cs, none⟩

-- Reachability ---------------------------------------------------------------

/-- Shard states reachable from a fresh shard by completed
`DiskCache::get_file` calls whose oracles satisfy `P`. -/
inductive Reach (P : GetOracle → Prop) : ShardState → Prop
  | init (mx : Nat) : Reach P (initShard mx)
  | step {st : ShardState} {uid : String} {o : GetOracle} :
      Reach P st → P o → Reach P (dget st uid o).st

/-- Oracle restriction used by the repaired C8 invariant: every
best-effort location-record removal performed during eviction succeeds. -/
def RecAll (o : GetOracle) : Prop := ∀ e ∈ o.evs, e.recOk = true

/-- Underflow checker mirroring `evictLoop` step for step: it returns true
exactly when every `current_size -= 1` the loop performs happens at a
strictly positive size, so that the u64 subtraction in cache.rs line 134
cannot underflow. -/
def evictLoopSafe (mx : Nat) : List EvictOracle → List String → Nat → List String → Bool
  | _, [], _, _ => true
  | evs, f :: rest, size, disk =>
    if mx ≤ size then
      if (evs.headD ⟨true, true, true⟩).metaOk ∧ f ∈ disk then
        if (evs.headD ⟨true, true, true⟩).removeOk then
          decide (1 ≤ size) && evictLoopSafe mx evs.tail rest (size - 1) (disk.erase f)
        else
          evictLoopSafe mx evs.tail rest size disk
      else
        evictLoopSafe mx evs.tail rest size disk
    else true

-- Double-checked initialization, interleaved model ---------------------------

/-- Program counter of one request task inside the initialization prologue
of `ConcurrentDiskCache::get_file` (cache.rs lines 181 to 196).
`start`: about to read `mapping_initialized` under the read lock;
`needWrite`: observed false, dropped the read lock, waiting for the write
lock; `doneInit`: performed the refresh and proceeded to routing;
`doneFail`: refresh failed, request aborted; `doneSkip`: observed true and
proceeded straight to routing. -/
inductive PC
  | start
  | needWrite
  | doneInit
  | doneFail
  | doneSkip
deriving DecidableEq

/-- Two concurrent first requests racing through the initialization
prologue: the shared flag, each task program counter, and how many times
`update_slot_to_node_mapping` has run. -/
structure Sys where
  flag : Bool
  pc1 : PC
  pc2 : PC
  refreshes : Nat
deriving DecidableEq

/-- Interleaved small-step semantics of the prologue.  The check step
reads the flag under the read lock and drops it (lines 182 to 184).  The
write step runs with the write lock held: it performs the refresh and sets
the flag, with no re-check of the flag (lines 185 to 192) — or fails and
aborts (lines 186 to 189).  The write section is one atomic step because
the write lock excludes every other lock user for its duration. -/
inductive SysStep : Sys → Sys → Prop
  | check1 (s : Sys) : s.pc1 = PC.start →
      SysStep s { s with pc1 := if s.flag then PC.doneSkip else PC.needWrite }
  | check2 (s : Sys) : s.pc2 = PC.start →
      SysStep s { s with pc2 := if s.flag then PC.doneSkip else PC.needWrite }
  | write1 (s : Sys) : s.pc1 = PC.needWrite →
      SysStep s { s with pc1 := PC.doneInit, flag := true, refreshes := s.refreshes + 1 }
  | write2 (s : Sys) : s.pc2 = PC.needWrite →
      SysStep s { s with pc2 := PC.doneInit, flag := true, refreshes := s.refreshes + 1 }
  | writeFail1 (s : Sys) : s.pc1 = PC.needWrite →
      SysStep s { s with pc1 := PC.doneFail }
  | writeFail2 (s : Sys) : s.pc2 = PC.needWrite →
      SysStep s { s with pc2 := PC.doneFail }

/-- Both tasks arrive before the slot map was ever loaded. -/
def sysInit : Sys := { flag := false, pc1 := PC.start, pc2 := PC.start, refreshes := 0 }

/-- States of the two-request race reachable from the fresh system. -/
inductive SysReach : Sys → Prop
  | init : SysReach sysInit
  | step {s t : Sys} : SysReach s → SysStep s t → SysReach t

/-- An all-success oracle: local uid, store reads work, blob fetch
succeeds, file writes succeed, no eviction-phase failures, open succeeds. -/
def okOracle : GetOracle :=
  { lookup := none, readOk := true, s3 := S3Resp.ok, createOk := true,
    writeOk := true, setLocOk := true, evs := [], openOk := true }

/-- Shard-local bookkeeping invariant maintained by every `get_file` call:
the three tracking collections are duplicate free. -/
def GoodShard (st : ShardState) : Prop :=
  st.accessOrder.Nodup ∧ st.disk.Nodup ∧ st.redis.Nodup

/-- Size-accounting invariant: the size counter dominates the number of
files actually present in the cache directory.  It is not maintained by
every run: a `write_all` failure after a successful `File::create` leaves
an uncounted file on disk. -/
def SizeInv (st : ShardState) : Prop :=
  st.disk.length ≤ st.currentSize

/-- Oracle restriction under which the size-accounting invariant is
maintained: no call loses `write_all` after a successful `File::create`,
so no uncounted orphan file is ever left in the cache directory. -/
def NoOrphan (o : GetOracle) : Prop :=
  o.createOk = true → o.writeOk = true

/-- Containment invariant: every tracked filename and every location
record points at a file present in the cache directory. -/
def SubInv (st : ShardState) : Prop :=
  (∀ x ∈ st.accessOrder, x ∈ st.disk) ∧ (∀ x ∈ st.redis, x ∈ st.disk)

/-- States of the C4 scenario: shard capacity two units, fetch "a", "b",
re-fetch "a", then fetch "c" with an eviction whose filesystem and
metadata-store operations all succeed. -/
def c4oEvict : GetOracle := { okOracle with evs := [⟨true, true, true⟩] }

/-- C4 scenario state after fetching "a". -/
def c4s1 : ShardState := (dget (initShard 2) "a" okOracle).st

/-- C4 scenario state after fetching "a" then "b". -/
def c4s2 : ShardState := (dget c4s1 "b" okOracle).st

/-- C4 scenario state after re-fetching "a". -/
def c4s3 : ShardState := (dget c4s2 "a" okOracle).st

/-- C4 scenario state after the final fetch of "c". -/
def c4s4 : ShardState := (dget c4s3 "c" c4oEvict).st

/-- The shard state right after the successful miss path inserted the new
file (before the final `update_access` of cache.rs line 92): eviction ran,
the file was written and counted, the uid was appended to the order queue,
and the location record write was attempted. -/
def missInsert (st : ShardState) (uid : String) (o : GetOracle) : ShardState :=
  let st1 := ensureCapacity o.evs st
  let st2 := { st1 with
    currentSize := st1.currentSize + 1,
    accessOrder := st1.accessOrder ++ [uid],
    disk := st1.disk.insert uid }
  if o.setLocOk then { st2 with redis := st2.redis.insert uid } else st2

-- Helper lemmas --------------------------------------------------------------

/-- The oracle consulted by an eviction iteration has a true `recOk` field
whenever every oracle of the list has one (the default consulted past the
end of the list is all true). -/
theorem headD_recOk {evs : List EvictOracle} (hrec : ∀ e ∈ evs, e.recOk = true) :
    (evs.headD ⟨true, true, true⟩).recOk = true := by
  cases evs with
  | nil => rfl
  | cons e tl => exact hrec e (List.mem_cons_self e tl)

/-- `recOk` restrictions survive dropping the consumed head oracle. -/
theorem tail_recOk {evs : List EvictOracle} (hrec : ∀ e ∈ evs, e.recOk = true) :
    ∀ e ∈ evs.tail, e.recOk = true := by
  cases evs with
  | nil => intro e he; cases he
  | cons a tl => intro e he; exact hrec e (List.mem_cons_of_mem a he)

/-- Writing back the element already stored at an index leaves a list
unchanged. -/
theorem list_set_getD {α : Type} (l : List α) (i : Nat) (d : α) :
    l.set i (l.getD i d) = l := by
  induction l generalizing i with
  | nil => rfl
  | cons a tl ih =>
    cases i with
    | zero => rfl
    | succ n => simpa using ih n

/-- The access order produced by `update_access` is duplicate free as soon
as the input list is. -/
theorem filter_append_nodup {l : List String} {f : String} (h : l.Nodup) :
    (l.filter (fun x => x != f) ++ [f]).Nodup := by
  rw [List.nodup_append]
  refine ⟨h.filter _, List.nodup_singleton f, ?_⟩
  intro x hx hxf
  rw [List.mem_singleton] at hxf
  subst hxf
  rw [List.mem_filter] at hx
  simpa using hx.2

/-- Inserting into a list grows its length by at most one. -/
theorem length_insert_le (l : List String) (a : String) :
    (l.insert a).length ≤ l.length + 1 := by
  by_cases h : a ∈ l
  · rw [List.insert_of_mem h]; omega
  · rw [List.insert_of_not_mem h]; simp

/-- The eviction loop preserves duplicate freeness and keeps the
remaining queue, disk and record sets inside the input ones. -/
theorem evictLoop_nodup (mx : Nat) (order : List String) :
    ∀ (evs : List EvictOracle) (size : Nat) (disk redis : List String),
      order.Nodup → disk.Nodup → redis.Nodup →
      (evictLoop mx evs order size disk redis).order.Nodup ∧
      (evictLoop mx evs order size disk redis).disk.Nodup ∧
      (evictLoop mx evs order size disk redis).redis.Nodup ∧
      (∀ x ∈ (evictLoop mx evs order size disk redis).order, x ∈ order) ∧
      (∀ x ∈ (evictLoop mx evs order size disk redis).disk, x ∈ disk) ∧
      (∀ x ∈ (evictLoop mx evs order size disk redis).redis, x ∈ redis) := by
  induction order with
  | nil =>
    intro evs size disk redis h1 h2 h3
    simp [evictLoop, h2, h3]
  | cons f rest ih =>
    intro evs size disk redis h1 h2 h3
    rw [evictLoop]
    split_ifs with hsz hmeta hrem hrec
    · -- successful delete, record removal succeeds
      have h := ih evs.tail (size - 1) (disk.erase f) (redis.erase f)
        h1.of_cons (h2.erase f) (h3.erase f)
      refine ⟨h.1, h.2.1, h.2.2.1, ?_, ?_, ?_⟩
      · exact fun x hx => List.mem_cons_of_mem f (h.2.2.2.1 x hx)
      · exact fun x hx => List.mem_of_mem_erase (h.2.2.2.2.1 x hx)
      · exact fun x hx => List.mem_of_mem_erase (h.2.2.2.2.2 x hx)
    · -- successful delete, record removal fails
      have h := ih evs.tail (size - 1) (disk.erase f) redis
        h1.of_cons (h2.erase f) h3
      refine ⟨h.1, h.2.1, h.2.2.1, ?_, ?_, h.2.2.2.2.2⟩
      · exact fun x hx => List.mem_cons_of_mem f (h.2.2.2.1 x hx)
      · exact fun x hx => List.mem_of_mem_erase (h.2.2.2.2.1 x hx)
    · -- delete failed
      have h := ih evs.tail size disk redis h1.of_cons h2 h3
      exact ⟨h.1, h.2.1, h.2.2.1,
        fun x hx => List.mem_cons_of_mem f (h.2.2.2.1 x hx),
        h.2.2.2.2.1, h.2.2.2.2.2⟩
    · -- metadata failed
      have h := ih evs.tail size disk redis h1.of_cons h2 h3
      exact ⟨h.1, h.2.1, h.2.2.1,
        fun x hx => List.mem_cons_of_mem f (h.2.2.2.1 x hx),
        h.2.2.2.2.1, h.2.2.2.2.2⟩
    · -- under capacity: loop exits immediately
      exact ⟨h1, h2, h3, fun x hx => hx, fun x hx => hx, fun x hx => hx⟩

/-- When the size counter dominates the disk population on entry, the
eviction loop preserves that bound: every decrement is matched by the
removal of a file that was present on disk. -/
theorem evictLoop_size (mx : Nat) (order : List String) :
    ∀ (evs : List EvictOracle) (size : Nat) (disk redis : List String),
      disk.length ≤ size →
      (evictLoop mx evs order size disk redis).disk.length ≤
        (evictLoop mx evs order size disk redis).size := by
  induction order with
  | nil =>
    intro evs size disk redis h4
    simpa [evictLoop] using h4
  | cons f rest ih =>
    intro evs size disk redis h4
    rw [evictLoop]
    split_ifs with hsz hmeta hrem hrec
    · have hf : f ∈ disk := hmeta.2
      have hlen : (disk.erase f).length = disk.length - 1 := List.length_erase_of_mem hf
      have hpos : 0 < disk.length := List.length_pos_of_mem hf
      exact ih evs.tail (size - 1) (disk.erase f) (redis.erase f) (by omega)
    · have hf : f ∈ disk := hmeta.2
      have hlen : (disk.erase f).length = disk.length - 1 := List.length_erase_of_mem hf
      have hpos : 0 < disk.length := List.length_pos_of_mem hf
      exact ih evs.tail (size - 1) (disk.erase f) redis (by omega)
    · exact ih evs.tail size disk redis h4
    · exact ih evs.tail size disk redis h4
    · exact h4

/-- When every location-record removal of the run succeeds, the eviction
loop keeps the queue and the record set pointing at files on disk. -/
theorem evictLoop_subinv (mx : Nat) (order : List String) :
    ∀ (evs : List EvictOracle) (size : Nat) (disk redis : List String),
      order.Nodup → redis.Nodup → (∀ e ∈ evs, e.recOk = true) →
      (∀ x ∈ order, x ∈ disk) → (∀ x ∈ redis, x ∈ disk) →
      (∀ x ∈ (evictLoop mx evs order size disk redis).order,
          x ∈ (evictLoop mx evs order size disk redis).disk) ∧
      (∀ x ∈ (evictLoop mx evs order size disk redis).redis,
          x ∈ (evictLoop mx evs order size disk redis).disk) := by
  induction order with
  | nil =>
    intro evs size disk redis _ _ _ _ hsub
    simpa [evictLoop] using hsub
  | cons f rest ih =>
    intro evs size disk redis h1 h3 hrec hord hsub
    have hfrest : f ∉ rest := by
      rw [List.nodup_cons] at h1
      exact h1.1
    rw [evictLoop]
    split_ifs with hsz hmeta hrem hrecb
    · -- successful delete, record removal succeeds
      refine ih evs.tail (size - 1) (disk.erase f) (redis.erase f)
        h1.of_cons (h3.erase f) (tail_recOk hrec) ?_ ?_
      · intro x hx
        have hxf : x ≠ f := fun he => hfrest (he ▸ hx)
        exact (List.mem_erase_of_ne hxf).2 (hord x (List.mem_cons_of_mem f hx))
      · intro x hx
        rw [List.Nodup.mem_erase_iff h3] at hx
        exact (List.mem_erase_of_ne hx.1).2 (hsub x hx.2)
    · -- successful delete but record removal failed: excluded by hrec
      exact absurd (headD_recOk hrec) hrecb
    · -- delete failed: nothing changes
      refine ih evs.tail size disk redis h1.of_cons h3 (tail_recOk hrec) ?_ hsub
      exact fun x hx => hord x (List.mem_cons_of_mem f hx)
    · -- metadata failed: nothing changes
      refine ih evs.tail size disk redis h1.of_cons h3 (tail_recOk hrec) ?_ hsub
      exact fun x hx => hord x (List.mem_cons_of_mem f hx)
    · -- under capacity
      exact ⟨fun x hx => hord x hx, hsub⟩

/-- Immediately after the eviction loop stops, either the size is strictly
under the bound or the queue has been fully drained: this is exactly the
negation of the `while` guard of `ensure_capacity`. -/
theorem evictLoop_post (mx : Nat) (order : List String) :
    ∀ (evs : List EvictOracle) (size : Nat) (disk redis : List String),
      (evictLoop mx evs order size disk redis).size < mx ∨
      (evictLoop mx evs order size disk redis).order = [] := by
  induction order with
  | nil => intro evs size disk redis; right; rfl
  | cons f rest ih =>
    intro evs size disk redis
    rw [evictLoop]
    split_ifs with hsz hmeta hrem
    · exact ih evs.tail (size - 1) (disk.erase f) _
    · exact ih evs.tail (size - 1) (disk.erase f) redis
    · exact ih evs.tail size disk redis
    · exact ih evs.tail size disk redis
    · left; show size < mx; omega

/-- Every size decrement the eviction loop performs happens at a strictly
positive size, provided the size counter dominates the disk population:
a successful delete needs its file on disk, so the disk was nonempty. -/
theorem evictLoopSafe_true (mx : Nat) (order : List String) :
    ∀ (evs : List EvictOracle) (size : Nat) (disk : List String),
      disk.length ≤ size →
      evictLoopSafe mx evs order size disk = true := by
  induction order with
  | nil => intro evs size disk _; rfl
  | cons f rest ih =>
    intro evs size disk hlen
    rw [evictLoopSafe]
    split_ifs with hsz hmeta hrem
    · have hf : f ∈ disk := hmeta.2
      have hpos : 0 < disk.length := List.length_pos_of_mem hf
      have hlen2 : (disk.erase f).length = disk.length - 1 := List.length_erase_of_mem hf
      rw [Bool.and_eq_true]
      exact ⟨by simp only [decide_eq_true_eq]; omega,
        ih evs.tail (size - 1) (disk.erase f) (by omega)⟩
    · exact ih evs.tail size disk hlen
    · exact ih evs.tail size disk hlen
    · rfl

-- Characterizations of dget by oracle case ------------------------------------

/-- A remote slot-map answer makes `get_file` return the node redirect
without modifying the shard (although the shard mutex was acquired). -/
theorem dget_eq_lookup_some (st : ShardState) (uid : String) (o : GetOracle)
    (x : IpAddr) (p : Nat) (hL : o.lookup = some (x, p)) :
    dget st uid o = ⟨GFResult.nodeRedirect (redirectUrlFor x p uid), st, true⟩ := by
  simp [dget, hL]

/-- A location-record hit moves the uid to the order tail and then serves
it exactly when the open succeeds. -/
theorem dget_eq_hit (st : ShardState) (uid : String) (o : GetOracle)
    (hL : o.lookup = none) (hh : o.readOk ∧ uid ∈ st.redis) :
    dget st uid o =
      if o.openOk ∧ uid ∈ (updateAccess st uid).disk
      then ⟨GFResult.served uid, updateAccess st uid, true⟩
      else ⟨GFResult.notFoundRedirect, updateAccess st uid, true⟩ := by
  simp only [dget, hL]
  rw [if_pos hh]

/-- A miss whose blob-storage fetch fails is answered with the not-found
redirect before any state is modified. -/
theorem dget_eq_miss_err (st : ShardState) (uid : String) (o : GetOracle)
    (hL : o.lookup = none) (hh : ¬(o.readOk ∧ uid ∈ st.redis))
    (hs3 : o.s3 = S3Resp.notFound ∨ o.s3 = S3Resp.otherErr) :
    dget st uid o = ⟨GFResult.notFoundRedirect, st, true⟩ := by
  rcases hs3 with h | h <;>
    simp [dget, getS3FileToCache, hL, hh, h]

/-- A miss whose `File::create` fails keeps the eviction side effects but
produces no file, and is answered with the not-found redirect. -/
theorem dget_eq_miss_createFail (st : ShardState) (uid : String) (o : GetOracle)
    (hL : o.lookup = none) (hh : ¬(o.readOk ∧ uid ∈ st.redis))
    (hs3 : o.s3 = S3Resp.ok) (hc : o.createOk = false) :
    dget st uid o = ⟨GFResult.notFoundRedirect, ensureCapacity o.evs st, true⟩ := by
  simp [dget, getS3FileToCache, hL, hh, hs3, hc]

/-- A miss whose `write_all` fails after a successful `File::create`
keeps the eviction side effects and leaves the created file on disk,
uncounted and untracked, answered with the not-found redirect. -/
theorem dget_eq_miss_writeFail (st : ShardState) (uid : String) (o : GetOracle)
    (hL : o.lookup = none) (hh : ¬(o.readOk ∧ uid ∈ st.redis))
    (hs3 : o.s3 = S3Resp.ok) (hc : o.createOk = true) (hw : o.writeOk = false) :
    dget st uid o =
      ⟨GFResult.notFoundRedirect,
        { ensureCapacity o.evs st with
          disk := (ensureCapacity o.evs st).disk.insert uid }, true⟩ := by
  simp [dget, getS3FileToCache, hL, hh, hs3, hc, hw]

/-- A fully successful miss produces the inserted state followed by the
final `update_access`, then serves exactly when the open succeeds. -/
theorem dget_eq_miss_ok (st : ShardState) (uid : String) (o : GetOracle)
    (hL : o.lookup = none) (hh : ¬(o.readOk ∧ uid ∈ st.redis))
    (hs3 : o.s3 = S3Resp.ok) (hc : o.createOk = true) (hw : o.writeOk = true) :
    dget st uid o =
      if o.openOk ∧ uid ∈ (updateAccess (missInsert st uid o) uid).disk
      then ⟨GFResult.served uid, updateAccess (missInsert st uid o) uid, true⟩
      else ⟨GFResult.notFoundRedirect, updateAccess (missInsert st uid o) uid, true⟩ := by
  simp [dget, getS3FileToCache, missInsert, hL, hh, hs3, hc, hw]

/-- The access order written by `update_access` on top of the miss-path
insertion simplifies to the filtered eviction-survivor queue with the uid
at the tail. -/
theorem missInsert_update_order (st : ShardState) (uid : String) (o : GetOracle) :
    (updateAccess (missInsert st uid o) uid).accessOrder =
      (ensureCapacity o.evs st).accessOrder.filter (fun x => x != uid) ++ [uid] := by
  unfold updateAccess missInsert
  split_ifs <;> simp [List.filter_append]

/-- The disk contents after a successful miss path. -/
theorem missInsert_update_disk (st : ShardState) (uid : String) (o : GetOracle) :
    (updateAccess (missInsert st uid o) uid).disk =
      (ensureCapacity o.evs st).disk.insert uid := by
  unfold updateAccess missInsert
  split_ifs <;> rfl

/-- The record set after a successful miss path. -/
theorem missInsert_update_redis (st : ShardState) (uid : String) (o : GetOracle) :
    (updateAccess (missInsert st uid o) uid).redis =
      if o.setLocOk then (ensureCapacity o.evs st).redis.insert uid
      else (ensureCapacity o.evs st).redis := by
  unfold updateAccess missInsert
  split_ifs <;> rfl

/-- The size counter after a successful miss path. -/
theorem missInsert_update_size (st : ShardState) (uid : String) (o : GetOracle) :
    (updateAccess (missInsert st uid o) uid).currentSize =
      (ensureCapacity o.evs st).currentSize + 1 := by
  unfold updateAccess missInsert
  split_ifs <;> rfl

/-- The capacity bound after a successful miss path. -/
theorem missInsert_update_max (st : ShardState) (uid : String) (o : GetOracle) :
    (updateAccess (missInsert st uid o) uid).maxSize = st.maxSize := by
  unfold updateAccess missInsert ensureCapacity
  split_ifs <;> rfl

/-- The bookkeeping invariant survives one complete `get_file` call,
whatever the environment does. -/
theorem dget_good {st : ShardState} {uid : String} {o : GetOracle}
    (h : GoodShard st) : GoodShard (dget st uid o).st := by
  obtain ⟨h1, h2, h3⟩ := h
  have hm := evictLoop_nodup st.maxSize st.accessOrder o.evs st.currentSize
    st.disk st.redis h1 h2 h3
  rcases hL : o.lookup with _ | ⟨x, p⟩
  · by_cases hh : o.readOk ∧ uid ∈ st.redis
    · rw [dget_eq_hit st uid o hL hh]
      split_ifs <;> exact ⟨filter_append_nodup h1, h2, h3⟩
    · rcases hs3 : o.s3 with _ | _ | _
      · -- blob fetch succeeded
        rcases hc : o.createOk with _ | _
        · rw [dget_eq_miss_createFail st uid o hL hh hs3 hc]
          exact ⟨hm.1, hm.2.1, hm.2.2.1⟩
        · rcases hw : o.writeOk with _ | _
          · rw [dget_eq_miss_writeFail st uid o hL hh hs3 hc hw]
            exact ⟨hm.1, hm.2.1.insert, hm.2.2.1⟩
          · rw [dget_eq_miss_ok st uid o hL hh hs3 hc hw]
            have hgood : GoodShard (updateAccess (missInsert st uid o) uid) := by
              refine ⟨?_, ?_, ?_⟩
              · rw [missInsert_update_order]
                exact filter_append_nodup hm.1
              · rw [missInsert_update_disk]
                exact hm.2.1.insert
              · rw [missInsert_update_redis]
                split_ifs
                · exact hm.2.2.1.insert
                · exact hm.2.2.1
            split_ifs <;> exact hgood
      · rw [dget_eq_miss_err st uid o hL hh (Or.inl hs3)]
        exact ⟨h1, h2, h3⟩
      · rw [dget_eq_miss_err st uid o hL hh (Or.inr hs3)]
        exact ⟨h1, h2, h3⟩
  · rw [dget_eq_lookup_some st uid o x p hL]
    exact ⟨h1, h2, h3⟩

/-- One complete `get_file` call whose disk write does not fail between
`File::create` and `write_all` keeps the size counter at or above the
number of files on disk. -/
theorem dget_size {st : ShardState} {uid : String} {o : GetOracle}
    (hn : NoOrphan o) (h4 : SizeInv st) : SizeInv (dget st uid o).st := by
  have hm := evictLoop_size st.maxSize st.accessOrder o.evs st.currentSize
    st.disk st.redis h4
  rcases hL : o.lookup with _ | ⟨x, p⟩
  · by_cases hh : o.readOk ∧ uid ∈ st.redis
    · rw [dget_eq_hit st uid o hL hh]
      split_ifs <;> exact h4
    · rcases hs3 : o.s3 with _ | _ | _
      · rcases hc : o.createOk with _ | _
        · rw [dget_eq_miss_createFail st uid o hL hh hs3 hc]
          exact hm
        · rcases hw : o.writeOk with _ | _
          · exact absurd (hn hc) (by rw [hw]; simp)
          · rw [dget_eq_miss_ok st uid o hL hh hs3 hc hw]
            have hsz : SizeInv (updateAccess (missInsert st uid o) uid) := by
              show (updateAccess (missInsert st uid o) uid).disk.length ≤
                (updateAccess (missInsert st uid o) uid).currentSize
              rw [missInsert_update_disk, missInsert_update_size]
              have := length_insert_le (ensureCapacity o.evs st).disk uid
              have h5 : (ensureCapacity o.evs st).disk.length ≤
                  (ensureCapacity o.evs st).currentSize := hm
              omega
            split_ifs <;> exact hsz
      · rw [dget_eq_miss_err st uid o hL hh (Or.inl hs3)]
        exact h4
      · rw [dget_eq_miss_err st uid o hL hh (Or.inr hs3)]
        exact h4
  · rw [dget_eq_lookup_some st uid o x p hL]
    exact h4

/-- When every eviction-phase location-record removal succeeds, one
complete `get_file` call keeps the order queue and the record set pointing
at files that are present on disk. -/
theorem dget_subinv {st : ShardState} {uid : String} {o : GetOracle}
    (hg : GoodShard st) (hs : SubInv st) (hr : RecAll o) :
    SubInv (dget st uid o).st := by
  obtain ⟨h1, h2, h3⟩ := hg
  obtain ⟨hso, hsr⟩ := hs
  have hm := evictLoop_subinv st.maxSize st.accessOrder o.evs st.currentSize
    st.disk st.redis h1 h3 hr hso hsr
  rcases hL : o.lookup with _ | ⟨x, p⟩
  · by_cases hh : o.readOk ∧ uid ∈ st.redis
    · rw [dget_eq_hit st uid o hL hh]
      have hdisk : uid ∈ st.disk := hsr uid hh.2
      have hres : SubInv (updateAccess st uid) := by
        refine ⟨?_, hsr⟩
        intro y hy
        rcases List.mem_append.1 hy with hy | hy
        · exact hso y (List.mem_of_mem_filter hy)
        · rw [List.mem_singleton] at hy
          exact hy ▸ hdisk
      split_ifs <;> exact hres
    · rcases hs3 : o.s3 with _ | _ | _
      · rcases hc : o.createOk with _ | _
        · rw [dget_eq_miss_createFail st uid o hL hh hs3 hc]
          exact ⟨hm.1, hm.2⟩
        · rcases hw : o.writeOk with _ | _
          · -- orphan file left by the failed write: it only adds to disk
            rw [dget_eq_miss_writeFail st uid o hL hh hs3 hc hw]
            exact ⟨fun y hy => List.mem_insert_of_mem (hm.1 y hy),
              fun y hy => List.mem_insert_of_mem (hm.2 y hy)⟩
          · rw [dget_eq_miss_ok st uid o hL hh hs3 hc hw]
            have hres : SubInv (updateAccess (missInsert st uid o) uid) := by
              constructor
              · intro y hy
                rw [missInsert_update_order] at hy
                rw [missInsert_update_disk]
                rcases List.mem_append.1 hy with hy | hy
                · exact List.mem_insert_of_mem (hm.1 y (List.mem_of_mem_filter hy))
                · rw [List.mem_singleton] at hy
                  exact hy ▸ List.mem_insert_self uid _
              · intro y hy
                rw [missInsert_update_redis] at hy
                rw [missInsert_update_disk]
                split_ifs at hy with hsl
                · rcases List.mem_insert_iff.1 hy with hy | hy
                  · exact hy ▸ List.mem_insert_self uid _
                  · exact List.mem_insert_of_mem (hm.2 y hy)
                · exact List.mem_insert_of_mem (hm.2 y hy)
            split_ifs <;> exact hres
      · rw [dget_eq_miss_err st uid o hL hh (Or.inl hs3)]
        exact ⟨hso, hsr⟩
      · rw [dget_eq_miss_err st uid o hL hh (Or.inr hs3)]
        exact ⟨hso, hsr⟩
  · rw [dget_eq_lookup_some st uid o x p hL]
    exact ⟨hso, hsr⟩

/-- Every reachable shard state satisfies the bookkeeping invariant. -/
theorem reach_good {P : GetOracle → Prop} {st : ShardState} (h : Reach P st) :
    GoodShard st := by
  induction h with
  | init mx => exact ⟨List.nodup_nil, List.nodup_nil, List.nodup_nil⟩
  | step _ _ ih => exact dget_good ih

/-- Every shard state reachable through runs that never lose `write_all`
after a successful `File::create` satisfies the size-accounting
invariant. -/
theorem reach_size {st : ShardState} (h : Reach NoOrphan st) : SizeInv st := by
  induction h with
  | init mx => exact Nat.le_refl 0
  | step _ hP ih => exact dget_size hP ih

/-- Every state reachable through runs whose eviction-phase record
removals all succeed additionally satisfies the containment invariant. -/
theorem reach_good_sub {st : ShardState} (h : Reach RecAll st) :
    GoodShard st ∧ SubInv st := by
  induction h with
  | init mx =>
    refine ⟨⟨List.nodup_nil, List.nodup_nil, List.nodup_nil⟩, ?_, ?_⟩ <;>
      intro x hx <;> cases hx
  | step _ hP ih => exact ⟨dget_good ih.1, dget_subinv ih.1 ih.2 hP⟩

-- Claim theorems ---------------------------------------------------------------

/-- Claim C1, counterexample.  Start from an empty shard with
`max_size = 1`; fetch "a" with every external operation succeeding, then
fetch "b" while the delete of the eviction victim fails
(`fs::remove_file` returns an error, which the source only logs).  The
resulting state, reachable by two fetches, has `current_size = 2` with
`max_size = 1`, and running `ensure_capacity` on it — exactly what the next
miss does, with the delete failing again — returns with
`current_size = 2 > 1 = max_size`, contradicting the claim that the bound
holds even when `fs::metadata` or `fs::remove_file` fails. -/
theorem C1_counterexample :
    (ensureCapacity [⟨true, false, true⟩]
        (dget (dget (initShard 1) "a" okOracle).st "b"
          { okOracle with evs := [⟨true, false, true⟩] }).st).currentSize = 2 ∧
    (ensureCapacity [⟨true, false, true⟩]
        (dget (dget (initShard 1) "a" okOracle).st "b"
          { okOracle with evs := [⟨true, false, true⟩] }).st).maxSize = 1 ∧
    (dget (dget (dget (initShard 1) "a" okOracle).st "b"
          { okOracle with evs := [⟨true, false, true⟩] }).st "c"
        { okOracle with evs := [⟨true, false, true⟩] }).st.currentSize = 3 := by
  decide

/-- Claim C1, amended: immediately after any `ensure_capacity` call
returns, either `current_size < max_size` or `access_order` is empty; the
`current_size ≤ max_size` bound only follows when the eviction deletions
succeed, because a victim whose metadata lookup or delete fails leaves the
queue without `current_size` being decremented. -/
theorem C1_capacity_after_ensure (st : ShardState) (evs : List EvictOracle) :
    (ensureCapacity evs st).currentSize < st.maxSize ∨
    (ensureCapacity evs st).accessOrder = [] := by
  unfold ensureCapacity
  exact evictLoop_post st.maxSize st.accessOrder evs st.currentSize st.disk st.redis

/-- Claim C4: the concrete LRU scenario on a shard of capacity two.
Fetching "a" then "b" (both misses filled from blob storage) yields access
order ["a", "b"]; re-fetching "a" yields ["b", "a"]; fetching "c" evicts
"b", leaving order ["a", "c"] with the file of "b" deleted from the cache
directory and its location record removed from the metadata store. -/
theorem C4_concrete_lru_scenario :
    c4s1.accessOrder = ["a"] ∧
    c4s2.accessOrder = ["a", "b"] ∧
    c4s3.accessOrder = ["b", "a"] ∧
    (dget c4s2 "a" okOracle).res = GFResult.served "a" ∧
    c4s4.accessOrder = ["a", "c"] ∧
    "b" ∉ c4s4.disk ∧
    "b" ∉ c4s4.redis ∧
    "a" ∈ c4s4.disk ∧ "c" ∈ c4s4.disk ∧
    c4s4.currentSize = 2 ∧ c4s4.maxSize = 2 := by
  decide

/-- With a local slot-map answer, `DiskCache::get_file` never returns a
node redirect: every non-redirect branch produces a served file or the
not-found redirect. -/
theorem dget_local_not_node_redirect (st : ShardState) (uid : String) (o : GetOracle)
    (hL : o.lookup = none) :
    ∀ u, (dget st uid o).res ≠ GFResult.nodeRedirect u := by
  intro u
  by_cases hh : o.readOk ∧ uid ∈ st.redis
  · rw [dget_eq_hit st uid o hL hh]
    split_ifs <;> simp
  · rcases hs3 : o.s3 with _ | _ | _
    · rcases hc : o.createOk with _ | _
      · rw [dget_eq_miss_createFail st uid o hL hh hs3 hc]
        simp
      · rcases hw : o.writeOk with _ | _
        · rw [dget_eq_miss_writeFail st uid o hL hh hs3 hc hw]
          simp
        · rw [dget_eq_miss_ok st uid o hL hh hs3 hc hw]
          split_ifs <;> simp
    · rw [dget_eq_miss_err st uid o hL hh (Or.inl hs3)]
      simp
    · rw [dget_eq_miss_err st uid o hL hh (Or.inr hs3)]
      simp

/-- Claim C2, counterexample.  A request for uid "x" owned by the remote
node 10.0.0.5:7000 is answered with the computed node redirect, but the
shard selected by the hash is locked on the way (`cache.lock().await`,
cache.rs line 57, runs before the slot-map lookup on line 58), so the
claim that no local shard is locked on the redirect path is false. -/
theorem C2_counterexample :
    (cget (fun _ => 0)
        { mappingInitialized := true, shards := [emptyShard, emptyShard, emptyShard] } "x"
        ⟨true, { okOracle with lookup := some (IpAddr.v4 10 0 0 5, 7000) }⟩).touchedShard =
      some 0 ∧
    (cget (fun _ => 0)
        { mappingInitialized := true, shards := [emptyShard, emptyShard, emptyShard] } "x"
        ⟨true, { okOracle with lookup := some (IpAddr.v4 10 0 0 5, 7000) }⟩).res =
      GFResult.nodeRedirect
        { host := Host.ip (IpAddr.v4 10 0 0 5), port := 27000, path := "/s3/x" } := by
  decide

/-- Claim C2, amended: with the slot map initialized, a uid owned by a
remote node is answered with the redirect to that node's computed address
and port and no shard state is read or modified (the whole cluster state
is returned unchanged), although the selected shard's mutex is acquired
and released before the lookup; a uid owned by the local node is never
answered with a node redirect. -/
theorem C2_routing (hashFn : String → Nat) (cs : ClusterState) (uid : String)
    (o : ClusterOracle) (hinit : cs.mappingInitialized = true) :
    (∀ x p, o.g.lookup = some (x, p) →
        (cget hashFn cs uid o).res = GFResult.nodeRedirect (redirectUrlFor x p uid) ∧
        (cget hashFn cs uid o).cs = cs ∧
        (cget hashFn cs uid o).touchedShard = some (hashFn uid % cs.shards.length)) ∧
    (o.g.lookup = none →
        ∀ u, (cget hashFn cs uid o).res ≠ GFResult.nodeRedirect u) := by
  have hc : cget hashFn cs uid o = cgetRoute hashFn cs uid o.g := by
    unfold cget
    rw [hinit]
    simp
  constructor
  · intro x p hL
    rw [hc]
    simp only [cgetRoute]
    rw [dget_eq_lookup_some _ uid o.g x p hL]
    refine ⟨rfl, ?_, trivial⟩
    rw [list_set_getD]
  · intro hL u
    rw [hc]
    simp only [cgetRoute]
    exact dget_local_not_node_redirect _ uid o.g hL u

/-- Claim C2, witness: the amended routing theorem applied to the
concrete remote owner 10.0.0.5:7000 for uid "x". -/
theorem C2_routing_witness :
    (cget (fun _ => 0)
        { mappingInitialized := true, shards := [initShard 1, initShard 1, initShard 1] } "x"
        ⟨true, { okOracle with lookup := some (IpAddr.v4 10 0 0 5, 7000) }⟩).res =
      GFResult.nodeRedirect (redirectUrlFor (IpAddr.v4 10 0 0 5) 7000 "x") ∧
    (cget (fun _ => 0)
        { mappingInitialized := true, shards := [initShard 1, initShard 1, initShard 1] } "x"
        ⟨true, { okOracle with lookup := some (IpAddr.v4 10 0 0 5, 7000) }⟩).cs =
      { mappingInitialized := true, shards := [initShard 1, initShard 1, initShard 1] } := by
  have h := (C2_routing (fun _ => 0)
    { mappingInitialized := true, shards := [initShard 1, initShard 1, initShard 1] } "x"
    ⟨true, { okOracle with lookup := some (IpAddr.v4 10 0 0 5, 7000) }⟩ rfl).1
    (IpAddr.v4 10 0 0 5) 7000 rfl
  exact ⟨h.1, h.2.1⟩

/-- Claim C3, counterexample.  From the same empty shard, a miss whose
blob-storage fetch reports not-found and a miss whose fetch fails with any
other upstream error are both answered with the identical
`/not_found_on_this_disk` redirect (cache.rs lines 84 to 87 collapse every
fetch error into that one response), so the upstream error is surfaced as
not-found rather than as a distinct server error. -/
theorem C3_counterexample :
    (dget (initShard 1) "u" { okOracle with s3 := S3Resp.notFound }).res =
      GFResult.notFoundRedirect ∧
    (dget (initShard 1) "u" { okOracle with s3 := S3Resp.otherErr }).res =
      GFResult.notFoundRedirect ∧
    (dget (initShard 1) "u" { okOracle with s3 := S3Resp.notFound }).res =
      (dget (initShard 1) "u" { okOracle with s3 := S3Resp.otherErr }).res := by
  decide

/-- Claim C3, amended: on the local fetch path, both
`FetchError::NotFound` and every other blob-storage failure are mapped to
the same client-visible not-found redirect, with the shard state left
unchanged; the router does not produce a distinct server-error outcome. -/
theorem C3_error_collapse (st : ShardState) (uid : String) (o : GetOracle)
    (hL : o.lookup = none) (hh : ¬(o.readOk = true ∧ uid ∈ st.redis))
    (hs3 : o.s3 = S3Resp.notFound ∨ o.s3 = S3Resp.otherErr) :
    (dget st uid o).res = GFResult.notFoundRedirect ∧ (dget st uid o).st = st := by
  rw [dget_eq_miss_err st uid o hL hh hs3]
  exact ⟨rfl, rfl⟩

/-- Claim C3, witness: the amended theorem at the empty shard for uid "v"
with an upstream (non-404) blob-storage failure. -/
theorem C3_error_collapse_witness :
    (dget (initShard 2) "v" { okOracle with s3 := S3Resp.otherErr }).res =
      GFResult.notFoundRedirect ∧
    (dget (initShard 2) "v" { okOracle with s3 := S3Resp.otherErr }).st = initShard 2 :=
  C3_error_collapse (initShard 2) "v" { okOracle with s3 := S3Resp.otherErr }
    rfl (by decide) (Or.inr rfl)

/-- Claim C5, counterexample.  For a remote owner whose coordination port
is 50000, the u16 addition `p + PORT_OFFSET_TO_WEB_SERVER` wraps modulo
2^16, so the redirect target port is 4464, not 70000: the claim that the
port always equals the coordination port plus 20000 fails. -/
theorem C5_counterexample :
    (redirectUrlFor (IpAddr.v4 10 0 0 5) 50000 "x").port = 4464 ∧
    (redirectUrlFor (IpAddr.v4 10 0 0 5) 50000 "x").port ≠
      50000 + PORT_OFFSET_TO_WEB_SERVER := by
  decide

/-- Claim C5, amended: whenever the coordination port plus the fixed
offset 20000 still fits in 16 bits, the redirect URL's port is exactly
that sum, the path is the file-serving path "/s3/" suffixed with the uid,
a loopback owner address resolves to host "localhost", and a non-loopback
owner keeps its literal IP; for larger ports the u16 sum wraps modulo
2^16. -/
theorem C5_redirect_url (x : IpAddr) (p : Nat) (uid : String)
    (hp : p + PORT_OFFSET_TO_WEB_SERVER < 65536) :
    (redirectUrlFor x p uid).port = p + PORT_OFFSET_TO_WEB_SERVER ∧
    (redirectUrlFor x p uid).path = "/s3/" ++ uid ∧
    (x.isLoopback = true → (redirectUrlFor x p uid).host = Host.localhost) ∧
    (x.isLoopback = false → (redirectUrlFor x p uid).host = Host.ip x) := by
  refine ⟨?_, rfl, ?_, ?_⟩
  · show (p + PORT_OFFSET_TO_WEB_SERVER) % 65536 = p + PORT_OFFSET_TO_WEB_SERVER
    exact Nat.mod_eq_of_lt hp
  · intro hl
    simp [redirectUrlFor, hl]
  · intro hl
    simp [redirectUrlFor, hl]

/-- Claim C5, witness: the concrete scenario of the claim — owner
10.0.0.5:7000 and uid "x" give target port 27000 and path "/s3/x" — and a
loopback owner 127.0.0.1:7000 resolves to host "localhost". -/
theorem C5_redirect_url_witness :
    (redirectUrlFor (IpAddr.v4 10 0 0 5) 7000 "x").port = 27000 ∧
    (redirectUrlFor (IpAddr.v4 10 0 0 5) 7000 "x").path = "/s3/x" ∧
    (redirectUrlFor (IpAddr.v4 10 0 0 5) 7000 "x").host = Host.ip (IpAddr.v4 10 0 0 5) ∧
    (redirectUrlFor (IpAddr.v4 127 0 0 1) 7000 "x").host = Host.localhost := by
  have h1 := C5_redirect_url (IpAddr.v4 10 0 0 5) 7000 "x" (by decide)
  have h2 := C5_redirect_url (IpAddr.v4 127 0 0 1) 7000 "x" (by decide)
  exact ⟨h1.1, h1.2.1, h1.2.2.2 (by decide), h2.2.2.1 (by decide)⟩

/-- Claim C6: when the slot map has not been initialized and the refresh
fails, `ConcurrentDiskCache::get_file` aborts the request with the
distinct `/error_updating_mapping` redirect, the whole cluster state
(including the `mapping_initialized` flag) is unchanged, and the response
is different from the not-found redirect, from every node redirect and
from every served file. -/
theorem C6_mapping_error (hashFn : String → Nat) (cs : ClusterState) (uid : String)
    (o : ClusterOracle) (hinit : cs.mappingInitialized = false)
    (hre : o.refreshOk = false) :
    (cget hashFn cs uid o).res = GFResult.mappingErrorRedirect ∧
    (cget hashFn cs uid o).cs = cs ∧
    (cget hashFn cs uid o).cs.mappingInitialized = false ∧
    (cget hashFn cs uid o).res ≠ GFResult.notFoundRedirect ∧
    (∀ u, (cget hashFn cs uid o).res ≠ GFResult.nodeRedirect u) ∧
    (∀ f, (cget hashFn cs uid o).res ≠ GFResult.served f) := by
  have hc : cget hashFn cs uid o = ⟨GFResult.mappingErrorRedirect, cs, none⟩ := by
    unfold cget
    rw [hinit, hre]
    simp
  rw [hc]
  exact ⟨rfl, rfl, hinit, by simp, by simp, by simp⟩

/-- Claim C6, witness: a fresh three-shard cluster whose first request
hits an unreachable coordination service. -/
theorem C6_mapping_error_witness :
    (cget (fun _ => 0) (clusterInit 6) "x" ⟨false, okOracle⟩).res =
      GFResult.mappingErrorRedirect ∧
    (cget (fun _ => 0) (clusterInit 6) "x" ⟨false, okOracle⟩).cs.mappingInitialized =
      false := by
  have h := C6_mapping_error (fun _ => 0) (clusterInit 6) "x" ⟨false, okOracle⟩ rfl rfl
  exact ⟨h.1, h.2.2.1⟩

/-- Whenever a `get_file` call serves a uid, that uid sits at the tail of
the access order of the resulting state: both the hit path and the filled
miss path run `update_access` before serving. -/
theorem dget_served_tail (st : ShardState) (uid : String) (o : GetOracle)
    (h : (dget st uid o).res = GFResult.served uid) :
    (dget st uid o).st.accessOrder.getLast? = some uid := by
  rcases hL : o.lookup with _ | ⟨x, p⟩
  · by_cases hh : o.readOk ∧ uid ∈ st.redis
    · rw [dget_eq_hit st uid o hL hh] at h ⊢
      split_ifs at h ⊢ with ho
      · show (st.accessOrder.filter (fun x => x != uid) ++ [uid]).getLast? = some uid
        exact List.getLast?_concat _
    · rcases hs3 : o.s3 with _ | _ | _
      · rcases hc : o.createOk with _ | _
        · rw [dget_eq_miss_createFail st uid o hL hh hs3 hc] at h
          exact absurd h (by simp)
        · rcases hw : o.writeOk with _ | _
          · rw [dget_eq_miss_writeFail st uid o hL hh hs3 hc hw] at h
            exact absurd h (by simp)
          · rw [dget_eq_miss_ok st uid o hL hh hs3 hc hw] at h ⊢
            split_ifs at h ⊢ with ho
            · show ((updateAccess (missInsert st uid o) uid).accessOrder).getLast? =
                some uid
              rw [missInsert_update_order]
              exact List.getLast?_concat _
      · rw [dget_eq_miss_err st uid o hL hh (Or.inl hs3)] at h
        exact absurd h (by simp)
      · rw [dget_eq_miss_err st uid o hL hh (Or.inr hs3)] at h
        exact absurd h (by simp)
  · rw [dget_eq_lookup_some st uid o x p hL] at h
    exact absurd h (by simp)

/-- Claim C7: in every shard state reachable by completed `get_file`
calls, no filename appears twice in the access order, and a uid served by
a further call (hit or refilled miss) ends up exactly at the tail of the
order. -/
theorem C7_no_duplicate_tracking (st : ShardState) (h : Reach (fun _ => True) st) :
    st.accessOrder.Nodup ∧
    ∀ uid o, (dget st uid o).res = GFResult.served uid →
      (dget st uid o).st.accessOrder.getLast? = some uid :=
  ⟨(reach_good h).1, fun uid o hres => dget_served_tail st uid o hres⟩

/-- Claim C7, witness: after fetching "a" and "b" on a fresh shard the
order is duplicate free, and re-fetching "a" puts "a" at the tail. -/
theorem C7_no_duplicate_tracking_witness :
    (dget (dget (initShard 2) "a" okOracle).st "b" okOracle).st.accessOrder.Nodup ∧
    (dget (dget (dget (initShard 2) "a" okOracle).st "b" okOracle).st
        "a" okOracle).st.accessOrder.getLast? = some "a" := by
  have h := C7_no_duplicate_tracking
    ((dget (dget (initShard 2) "a" okOracle).st "b" okOracle).st)
    (Reach.step (Reach.step (Reach.init 2) trivial) trivial)
  exact ⟨h.1, h.2 "a" okOracle (by decide)⟩

/-- Claim C8, counterexample.  On a shard with `max_size = 1`: fetch "a";
fetch "b", whose eviction deletes the file of "a" but fails to remove the
location record of "a" (the source discards the result of
`redis_read.remove_file` with `let _ =`); then fetch "a" again.  The
metadata store still reports a hit, `update_access` moves "a" to the order
tail, and the disk open fails because the file is gone, answered as
not-found — leaving "a" inside `access_order` with no file on disk, in a
reachable state, against the claimed invariant. -/
theorem C8_counterexample :
    "a" ∈ (dget (dget (dget (initShard 1) "a" okOracle).st "b"
        { okOracle with evs := [⟨true, true, false⟩] }).st "a" okOracle).st.accessOrder ∧
    "a" ∉ (dget (dget (dget (initShard 1) "a" okOracle).st "b"
        { okOracle with evs := [⟨true, true, false⟩] }).st "a" okOracle).st.disk ∧
    (dget (dget (dget (initShard 1) "a" okOracle).st "b"
        { okOracle with evs := [⟨true, true, false⟩] }).st "a" okOracle).res =
      GFResult.notFoundRedirect := by
  decide

/-- Claim C8, amended: in every shard state reachable through runs in
which each eviction's best-effort location-record removal succeeds, every
filename in the access order has a corresponding file on disk.  (When such
a removal fails, the stale record lets a later hit re-enter the order
queue for a deleted file; a hit whose open fails is answered as not-found
but its entry is not removed from the order.) -/
theorem C8_order_on_disk (st : ShardState) (h : Reach RecAll st) :
    ∀ f ∈ st.accessOrder, f ∈ st.disk :=
  (reach_good_sub h).2.1

/-- Claim C8, witness: after one successful fetch on a fresh shard, the
tracked filename "a" is on disk. -/
theorem C8_order_on_disk_witness :
    "a" ∈ (dget (initShard 2) "a" okOracle).st.disk :=
  C8_order_on_disk ((dget (initShard 2) "a" okOracle).st)
    (Reach.step (Reach.init 2) (by intro e he; simp [okOracle] at he)) "a" (by decide)

/-- Claim C10, counterexample.  Two reachable refutations.  First, the
failed-record-removal run used for C8 reaches a state whose access order
has two entries while `current_size` is 1, refuting the claimed invariant
that `current_size` is at least the length of `access_order`.  Second, the
no-underflow conclusion itself fails: on a shard with `max_size = 0` (any
configured total below SHARD_COUNT yields such shards), fetch "a"; fetch
"b" whose eviction deletes "a" but fails to remove its location record;
then fetch "a" again with a store read failure (treated as a miss) and a
`write_all` failure after a successful `File::create` (cache.rs line 117)
— eviction removes "b" and the failed write leaves an uncounted orphan
file "a" on disk with `current_size = 0`; the next request hits the stale
record and serves the orphan, re-entering "a" into `access_order`; the
eviction loop run from that reachable state pops "a", successfully deletes
its file and executes `current_size -= 1` at zero — the underflow checker
returns false. -/
theorem C10_counterexample :
    (dget (dget (dget (initShard 1) "a" okOracle).st "b"
        { okOracle with evs := [⟨true, true, false⟩] }).st "a" okOracle).st.currentSize = 1 ∧
    (dget (dget (dget (initShard 1) "a" okOracle).st "b"
        { okOracle with evs := [⟨true, true, false⟩] }).st "a"
        okOracle).st.accessOrder.length = 2 ∧
    (dget (dget (dget (initShard 0) "a" okOracle).st "b"
        { okOracle with evs := [⟨true, true, false⟩] }).st "a"
        { okOracle with readOk := false, writeOk := false, evs := [⟨true, true, true⟩] }).st.currentSize = 0 ∧
    (dget (dget (dget (initShard 0) "a" okOracle).st "b"
        { okOracle with evs := [⟨true, true, false⟩] }).st "a"
        { okOracle with readOk := false, writeOk := false, evs := [⟨true, true, true⟩] }).st.disk.length = 1 ∧
    (dget (dget (dget (dget (initShard 0) "a" okOracle).st "b"
        { okOracle with evs := [⟨true, true, false⟩] }).st "a"
        { okOracle with readOk := false, writeOk := false, evs := [⟨true, true, true⟩] }).st "a" okOracle).res = GFResult.served "a" ∧
    evictLoopSafe
      (dget (dget (dget (dget (initShard 0) "a" okOracle).st "b"
          { okOracle with evs := [⟨true, true, false⟩] }).st "a"
          { okOracle with readOk := false, writeOk := false, evs := [⟨true, true, true⟩] }).st "a" okOracle).st.maxSize
      [⟨true, true, true⟩]
      (dget (dget (dget (dget (initShard 0) "a" okOracle).st "b"
          { okOracle with evs := [⟨true, true, false⟩] }).st "a"
          { okOracle with readOk := false, writeOk := false, evs := [⟨true, true, true⟩] }).st "a" okOracle).st.accessOrder
      (dget (dget (dget (dget (initShard 0) "a" okOracle).st "b"
          { okOracle with evs := [⟨true, true, false⟩] }).st "a"
          { okOracle with readOk := false, writeOk := false, evs := [⟨true, true, true⟩] }).st "a" okOracle).st.currentSize
      (dget (dget (dget (dget (initShard 0) "a" okOracle).st "b"
          { okOracle with evs := [⟨true, true, false⟩] }).st "a"
          { okOracle with readOk := false, writeOk := false, evs := [⟨true, true, true⟩] }).st "a" okOracle).st.disk = false := by
  decide

/-- Claim C10, amended: in every shard state reachable through runs in
which `write_all` never fails after a successful `File::create`,
`current_size` is at least the number of files present in the shard's
cache directory (not the length of `access_order`, which can exceed
`current_size` after a hit on a stale record), and since a successful
delete requires its victim's file to be present on disk, every
`current_size -= 1` performed by the eviction loop happens at a strictly
positive counter — the unsigned decrement does not underflow in such
runs, whatever eviction oracles they encounter.  When a partial write
failure leaves an uncounted orphan file, a later hit on a stale record
re-tracks the orphan and a subsequent successful eviction decrements
`current_size` at zero, so the restriction is necessary. -/
theorem C10_no_underflow (st : ShardState) (h : Reach NoOrphan st) :
    st.disk.length ≤ st.currentSize ∧
    ∀ evs, evictLoopSafe st.maxSize evs st.accessOrder st.currentSize st.disk = true := by
  have hs := reach_size h
  exact ⟨hs,
    fun evs => evictLoopSafe_true st.maxSize st.accessOrder evs st.currentSize st.disk hs⟩

/-- Claim C10, witness: the size bound and the no-underflow checker hold
on the state after one fully successful fetch, run against an all-success
eviction oracle. -/
theorem C10_no_underflow_witness :
    (dget (initShard 1) "a" okOracle).st.disk.length ≤
      (dget (initShard 1) "a" okOracle).st.currentSize ∧
    evictLoopSafe (dget (initShard 1) "a" okOracle).st.maxSize [⟨true, true, true⟩]
      (dget (initShard 1) "a" okOracle).st.accessOrder
      (dget (initShard 1) "a" okOracle).st.currentSize
      (dget (initShard 1) "a" okOracle).st.disk = true := by
  have h := C10_no_underflow ((dget (initShard 1) "a" okOracle).st)
    (Reach.step (Reach.init 1) (fun _ => rfl))
  exact ⟨h.1, h.2 [⟨true, true, true⟩]⟩

/-- Claim C9, counterexample.  Schedule: task one reads the flag (false)
and drops the read lock; task two reads the flag (still false) and drops
the read lock; task one takes the write lock and refreshes; task two takes
the write lock and refreshes again — the source never re-reads
`mapping_initialized` after acquiring the write lock (cache.rs lines 185
to 192), so the reachable final state has performed the slot-map refresh
twice, refuting the claim that at most one concurrent first request
performs it. -/
theorem C9_counterexample :
    SysReach { flag := true, pc1 := PC.doneInit, pc2 := PC.doneInit, refreshes := 2 } := by
  have h0 : SysReach sysInit := SysReach.init
  have h1 := SysReach.step h0 (SysStep.check1 sysInit rfl)
  have h2 := SysReach.step h1 (SysStep.check2 _ rfl)
  have h3 := SysReach.step h2 (SysStep.write1 _ rfl)
  have h4 := SysReach.step h3 (SysStep.write2 _ rfl)
  exact h4

/-- Claim C9, amended: concurrent first requests can each perform the
slot-map refresh, because the initialization path does not re-verify the
flag after acquiring the write lock; the refreshes stay serialized by the
write lock, and a request only skips initialization and proceeds straight
to routing after at least one refresh has completed and marked the map
initialized (the flag is set exactly by the completed refreshes). -/
theorem C9_init_discipline (s : Sys) (h : SysReach s) :
    (s.flag = true ↔ 1 ≤ s.refreshes) ∧
    (s.pc1 = PC.doneSkip → s.flag = true) ∧
    (s.pc2 = PC.doneSkip → s.flag = true) := by
  induction h with
  | init => exact ⟨by decide, by decide, by decide⟩
  | @step s t hre hstep ih =>
    obtain ⟨ih1, ih2, ih3⟩ := ih
    cases hstep with
    | check1 hpc =>
      refine ⟨ih1, ?_, ih3⟩
      cases hf : s.flag with
      | true => intro _; rfl
      | false => intro hcontra; simp [hf] at hcontra
    | check2 hpc =>
      refine ⟨ih1, ih2, ?_⟩
      cases hf : s.flag with
      | true => intro _; rfl
      | false => intro hcontra; simp [hf] at hcontra
    | write1 hpc =>
      refine ⟨by simp, fun hcontra => by simp at hcontra, fun _ => rfl⟩
    | write2 hpc =>
      refine ⟨by simp, fun _ => rfl, fun hcontra => by simp at hcontra⟩
    | writeFail1 hpc =>
      exact ⟨ih1, fun hcontra => by simp at hcontra, ih3⟩
    | writeFail2 hpc =>
      exact ⟨ih1, ih2, fun hcontra => by simp at hcontra⟩

/-- Claim C9, witness: the initialization discipline at the fresh system
state — the flag is unset, no refresh has run, and neither task has
skipped initialization. -/
theorem C9_init_discipline_witness :
    (sysInit.flag = true ↔ 1 ≤ sysInit.refreshes) ∧
    (sysInit.pc1 = PC.doneSkip → sysInit.flag = true) ∧
    (sysInit.pc2 = PC.doneSkip → sysInit.flag = true) :=
  C9_init_discipline sysInit SysReach.init
